import Mathlib

/-
Verification of the mini-quiche QUIC wire codec.

The Rust source is shallowly embedded: byte buffers are `List Nat` (each
element a `u8` value), `u64` arithmetic is `Nat` with explicit `% 2 ^ w`
where the source masks or casts, and every fallible or panicking
operation returns a `PRes` outcome.  `Vec::remove(0)` and
`Vec::drain(..n)` panic when the buffer is too short, `unreachable!()`
panics, and `QuicheError` is its diagnostic string, so `PRes` has an
`ok` constructor carrying the remaining buffer, an `err` constructor
carrying the error string, and a `panic` constructor.
-/

namespace MiniQuiche

/-- Outcome of a decoding step on a draining byte buffer: success with
the remaining bytes, a returned `QuicheError` (modelled by its message
string), or a Rust panic. -/
inductive PRes (α : Type) : Type where
  | ok (a : α) (rest : List Nat)
  | err (e : String)
  | panic
deriving DecidableEq, Repr

/-- Sequencing of buffer-draining computations: `?` propagation of
errors; a panic aborts everything. -/
def PRes.bind {α β : Type} : PRes α → (α → List Nat → PRes β) → PRes β
  | .ok a rest, f => f a rest
  | .err e, _ => .err e
  | .panic, _ => .panic

/-- Model of `bytes.remove(0)`: first byte of the buffer; panics when empty. -/
def remove0 : List Nat → PRes Nat
  | [] => .panic
  | b :: bs => .ok b bs

/-- Model of `bytes.drain(..n).collect()`: first `n` bytes; panics when fewer
than `n` remain. -/
def drainN (n : Nat) (bs : List Nat) : PRes (List Nat) :=
  if n ≤ bs.length then .ok (bs.take n) (bs.drop n) else .panic

/-- Lift a buffer-free `QuicheResult` (e.g. checked VarInt arithmetic)
into a draining computation. -/
def qtry {α β : Type} (e : Except String α) (bs : List Nat) (k : α → List Nat → PRes β) : PRes β :=
  match e with
  | .ok a => k a bs
  | .error m => m |> .err

@[simp] theorem qtry_ok {α β : Type} (a : α) (bs : List Nat) (k : α → List Nat → PRes β) :
    qtry (Except.ok a) bs k = k a bs := rfl

@[simp] theorem qtry_error {α β : Type} (m : String) (bs : List Nat) (k : α → List Nat → PRes β) :
    qtry (Except.error m) bs k = .err m := rfl

@[simp] theorem PRes.bind_ok {α β : Type} (a : α) (rest : List Nat) (f : α → List Nat → PRes β) :
    (PRes.ok a rest).bind f = f a rest := rfl

@[simp] theorem PRes.bind_err {α β : Type} (e : String) (f : α → List Nat → PRes β) :
    (PRes.err (α := α) e).bind f = .err e := rfl

@[simp] theorem PRes.bind_panic {α β : Type} (f : α → List Nat → PRes β) :
    (PRes.panic (α := α)).bind f = .panic := rfl

theorem PRes.bind_eq_ok {α β : Type} {m : PRes α} {f : α → List Nat → PRes β}
    {b : β} {r : List Nat} (h : m.bind f = .ok b r) :
    ∃ a r', m = .ok a r' ∧ f a r' = .ok b r := by
  cases m with
  | ok a r' => exact ⟨a, r', rfl, h⟩
  | err e => simp [PRes.bind] at h
  | panic => simp [PRes.bind] at h

/-! ## VarInt (`src/primitives/varint.rs`) -/

/-- Model of `VarInt::MAX = (1 << 62) - 1`. -/
def VarInt.MAX : Nat := 2 ^ 62 - 1

/-- Model of `VarInt::size`: smallest of 1/2/4/8 bytes holding the value. -/
def VarInt.size (v : Nat) : Nat :=
  if v < 2 ^ 6 then 1
  else if v < 2 ^ 14 then 2
  else if v < 2 ^ 30 then 4
  else 8

/-- The two-bit length tag chosen by `VarInt::encode`'s
`match size { 1 => 0b00, 2 => 0b01, 4 => 0b10, 8 => 0b11 }`. -/
def VarInt.tagOfSize (s : Nat) : Nat :=
  if s = 1 then 0 else if s = 2 then 1 else if s = 4 then 2 else 3

/-- Model of `VarInt::encode`: first byte is `tag << 6 | (v >> 8*(size-1)) & 0x3F`
(pushed `as u8`), then the remaining bytes `(v >> 8*i) & 0xFF` for
`i = size-2 .. 0`. -/
def VarInt.encode (v : Nat) : List Nat :=
  (VarInt.tagOfSize (VarInt.size v) * 64 + v / 2 ^ (8 * (VarInt.size v - 1)) % 64) % 256
    :: (List.range (VarInt.size v - 1)).reverse.map (fun i => v / 2 ^ (8 * i) % 256)

/-- The loop of `VarInt::decode`: `val <<= 8; val |= bytes.remove(0)`,
run `2^disc - 1` times; ends with the `Self::new_u64` range check. -/
def VarInt.decodeLoop : Nat → Nat → List Nat → PRes Nat
  | 0, val, bs => if val ≤ VarInt.MAX then .ok val bs else .err "VarInt value exceeds maximum"
  | _ + 1, _, [] => .panic
  | n + 1, val, b :: bs => VarInt.decodeLoop n (val * 256 + b % 256) bs

/-- Model of `VarInt::decode`: empty buffer yields 0; otherwise the first byte's
top two bits give the length, and the remaining value bytes are
accumulated big-endian. -/
def VarInt.decode : List Nat → PRes Nat
  | [] => .ok 0 []
  | b :: bs => VarInt.decodeLoop (2 ^ (b % 256 / 64) - 1) (b % 256 % 64) bs

/-- The big-endian value bytes `(v >> 8*i) & 0xFF`, `i = k-1 .. 0`, as
produced by the encoder's tail loop. -/
def VarInt.tailBytes (v k : Nat) : List Nat :=
  (List.range k).reverse.map (fun i => v / 2 ^ (8 * i) % 256)

theorem VarInt.tailBytes_succ (v k : Nat) :
    VarInt.tailBytes v (k + 1) = v / 2 ^ (8 * k) % 256 :: VarInt.tailBytes v k := by
  simp [VarInt.tailBytes, List.range_succ]

/-- Running the decode loop over the encoder's `k` big-endian value
bytes accumulates `a * 2^(8k) + v % 2^(8k)`. -/
theorem VarInt.decodeLoop_tailBytes (k : Nat) : ∀ (v a : Nat) (rest : List Nat),
    VarInt.decodeLoop k a (VarInt.tailBytes v k ++ rest)
      = VarInt.decodeLoop 0 (a * 2 ^ (8 * k) + v % 2 ^ (8 * k)) rest := by
  induction k with
  | zero => intro v a rest; simp [VarInt.tailBytes, Nat.mod_one]
  | succ n ih =>
      intro v a rest
      rw [VarInt.tailBytes_succ, List.cons_append]
      show VarInt.decodeLoop n (a * 256 + v / 2 ^ (8 * n) % 256 % 256) _ = _
      rw [Nat.mod_mod_of_dvd _ (dvd_refl 256), ih v]
      congr 1
      have key : v % (2 ^ (8 * n) * 256) = 2 ^ (8 * n) * (v / 2 ^ (8 * n) % 256) + v % 2 ^ (8 * n) := by
        conv_lhs => rw [← Nat.div_add_mod (v % (2 ^ (8 * n) * 256)) (2 ^ (8 * n))]
        rw [Nat.mod_mul_right_div_self, Nat.mod_mod_of_dvd _ (dvd_mul_right _ 256)]
      have hp : 2 ^ (8 * (n + 1)) = 2 ^ (8 * n) * 256 := by
        rw [Nat.mul_succ, pow_add]; norm_num
      rw [hp, key]; ring

theorem VarInt.encode_eq_tailBytes (v : Nat) :
    VarInt.encode v =
      (VarInt.tagOfSize (VarInt.size v) * 64 + v / 2 ^ (8 * (VarInt.size v - 1)) % 64) % 256
        :: VarInt.tailBytes v (VarInt.size v - 1) := rfl

theorem VarInt.decode_cons (b : Nat) (bs : List Nat) :
    VarInt.decode (b :: bs) = VarInt.decodeLoop (2 ^ (b % 256 / 64) - 1) (b % 256 % 64) bs := rfl

theorem VarInt.decodeLoop_zero (val : Nat) (bs : List Nat) :
    VarInt.decodeLoop 0 val bs
      = if val ≤ VarInt.MAX then .ok val bs else .err "VarInt value exceeds maximum" := rfl

/-- Decoding an encoded VarInt from the front of any buffer restores the
value and leaves the rest of the buffer untouched. -/
theorem VarInt.decode_encode {v : Nat} (h : v ≤ VarInt.MAX) :
    ∀ rest, VarInt.decode (VarInt.encode v ++ rest) = .ok v rest := by
  intro rest
  have h' : v ≤ 2 ^ 62 - 1 := h
  by_cases h1 : v < 2 ^ 6
  · have hs : VarInt.size v = 1 := by unfold VarInt.size; split_ifs <;> omega
    rw [VarInt.encode_eq_tailBytes, hs]
    have hb : (VarInt.tagOfSize 1 * 64 + v / 2 ^ (8 * (1 - 1)) % 64) % 256 = v := by
      simp only [VarInt.tagOfSize]; norm_num; omega
    rw [hb, List.cons_append, VarInt.decode_cons]
    have e1 : v % 256 / 64 = 0 := by omega
    have e2 : v % 256 % 64 = v := by omega
    rw [e1, e2]
    show VarInt.decodeLoop 0 v (VarInt.tailBytes v 0 ++ rest) = .ok v rest
    rw [VarInt.decodeLoop_tailBytes 0 v v rest, VarInt.decodeLoop_zero,
      if_pos (show v * 2 ^ (8 * 0) + v % 2 ^ (8 * 0) ≤ VarInt.MAX by
        unfold VarInt.MAX; omega)]
    congr 1
    omega
  · by_cases h2 : v < 2 ^ 14
    · have hs : VarInt.size v = 2 := by unfold VarInt.size; split_ifs <;> omega
      rw [VarInt.encode_eq_tailBytes, hs]
      have hb : (VarInt.tagOfSize 2 * 64 + v / 2 ^ (8 * (2 - 1)) % 64) % 256
          = 64 + v / 2 ^ 8 := by simp only [VarInt.tagOfSize]; norm_num; omega
      rw [hb, List.cons_append, VarInt.decode_cons]
      have e1 : (64 + v / 2 ^ 8) % 256 / 64 = 1 := by omega
      have e2 : (64 + v / 2 ^ 8) % 256 % 64 = v / 2 ^ 8 := by omega
      rw [e1, e2]
      show VarInt.decodeLoop 1 (v / 2 ^ 8) (VarInt.tailBytes v 1 ++ rest) = .ok v rest
      rw [VarInt.decodeLoop_tailBytes 1 v, VarInt.decodeLoop_zero,
        if_pos (show v / 2 ^ 8 * 2 ^ (8 * 1) + v % 2 ^ (8 * 1) ≤ VarInt.MAX by
          unfold VarInt.MAX; omega)]
      congr 1
      omega
    · by_cases h3 : v < 2 ^ 30
      · have hs : VarInt.size v = 4 := by unfold VarInt.size; split_ifs <;> omega
        rw [VarInt.encode_eq_tailBytes, hs]
        have hb : (VarInt.tagOfSize 4 * 64 + v / 2 ^ (8 * (4 - 1)) % 64) % 256
            = 128 + v / 2 ^ 24 := by simp only [VarInt.tagOfSize]; norm_num; omega
        rw [hb, List.cons_append, VarInt.decode_cons]
        have e1 : (128 + v / 2 ^ 24) % 256 / 64 = 2 := by omega
        have e2 : (128 + v / 2 ^ 24) % 256 % 64 = v / 2 ^ 24 := by omega
        rw [e1, e2]
        show VarInt.decodeLoop 3 (v / 2 ^ 24) (VarInt.tailBytes v 3 ++ rest) = .ok v rest
        rw [VarInt.decodeLoop_tailBytes 3 v, VarInt.decodeLoop_zero,
          if_pos (show v / 2 ^ 24 * 2 ^ (8 * 3) + v % 2 ^ (8 * 3) ≤ VarInt.MAX by
            unfold VarInt.MAX; omega)]
        congr 1
        omega
      · have hs : VarInt.size v = 8 := by unfold VarInt.size; split_ifs <;> omega
        rw [VarInt.encode_eq_tailBytes, hs]
        have hb : (VarInt.tagOfSize 8 * 64 + v / 2 ^ (8 * (8 - 1)) % 64) % 256
            = 192 + v / 2 ^ 56 := by simp only [VarInt.tagOfSize]; norm_num; omega
        rw [hb, List.cons_append, VarInt.decode_cons]
        have e1 : (192 + v / 2 ^ 56) % 256 / 64 = 3 := by omega
        have e2 : (192 + v / 2 ^ 56) % 256 % 64 = v / 2 ^ 56 := by omega
        rw [e1, e2]
        show VarInt.decodeLoop 7 (v / 2 ^ 56) (VarInt.tailBytes v 7 ++ rest) = .ok v rest
        rw [VarInt.decodeLoop_tailBytes 7 v, VarInt.decodeLoop_zero,
          if_pos (show v / 2 ^ 56 * 2 ^ (8 * 7) + v % 2 ^ (8 * 7) ≤ VarInt.MAX by
            unfold VarInt.MAX; omega)]
        congr 1
        omega

theorem VarInt.size_pos (v : Nat) : 1 ≤ VarInt.size v := by
  unfold VarInt.size; split_ifs <;> norm_num

theorem VarInt.encode_length (v : Nat) : (VarInt.encode v).length = VarInt.size v := by
  have h := VarInt.size_pos v
  simp [VarInt.encode]
  omega

/-- C2: for every `v ≤ 2^62 - 1`, decoding the encoding of `v` from the
front of any buffer succeeds, returns `v`, and consumes exactly
`size v` bytes (the rest of the buffer is returned unread). -/
theorem c2_varint_roundtrip : ∀ (v : Nat) (rest : List Nat), v ≤ VarInt.MAX →
    VarInt.decode (VarInt.encode v ++ rest) = .ok v rest
      ∧ (VarInt.encode v).length = VarInt.size v := by
  intro v rest h
  exact ⟨VarInt.decode_encode h rest, VarInt.encode_length v⟩

/-- C2 witness: the round trip at `v = 300` with a nonempty trailing
buffer. -/
theorem c2_witness : (300 : Nat) ≤ VarInt.MAX
    ∧ (VarInt.decode (VarInt.encode 300 ++ [7]) = .ok 300 [7]
        ∧ (VarInt.encode 300).length = VarInt.size 300) :=
  ⟨by decide, c2_varint_roundtrip 300 [7] (by decide)⟩

/-- C7: the encoding of `v` is exactly `size v` bytes long, `size` is
monotonic, and the four concrete encodings named by the spec hold. -/
theorem c7_varint_minimality : ∀ v w : Nat, v ≤ VarInt.MAX → w ≤ VarInt.MAX →
    ((VarInt.encode v).length = VarInt.size v ∧ (v ≤ w → VarInt.size v ≤ VarInt.size w))
    ∧ (VarInt.encode 63 = [0x3f] ∧ VarInt.encode 64 = [0x40, 0x40]
        ∧ VarInt.encode 16383 = [0x7f, 0xff]
        ∧ VarInt.encode 16384 = [0x80, 0x00, 0x40, 0x00]) := by
  intro v w _ _
  refine ⟨⟨VarInt.encode_length v, ?_⟩, by decide, by decide, by decide, by decide⟩
  intro hvw
  unfold VarInt.size
  split_ifs <;> omega

/-- C7 witness: minimality and monotonicity instantiated at `v = 0`,
`w = 63`. -/
theorem c7_witness : (0 : Nat) ≤ VarInt.MAX ∧ (63 : Nat) ≤ VarInt.MAX
    ∧ ((((VarInt.encode 0).length = VarInt.size 0
          ∧ ((0 : Nat) ≤ 63 → VarInt.size 0 ≤ VarInt.size 63))
        ∧ (VarInt.encode 63 = [0x3f] ∧ VarInt.encode 64 = [0x40, 0x40]
            ∧ VarInt.encode 16383 = [0x7f, 0xff]
            ∧ VarInt.encode 16384 = [0x80, 0x00, 0x40, 0x00]))) :=
  ⟨by decide, by decide, c7_varint_minimality 0 63 (by decide) (by decide)⟩

/-- C8: decoding an empty buffer does yield `Ok(VarInt(0))`, but a
non-empty buffer with fewer bytes than its prefix dictates makes
`VarInt::decode` panic (`Vec::remove` on an exhausted buffer) instead
of returning a *truncated* error. -/
theorem c8_truncation_panics :
    VarInt.decode [] = .ok 0 []
    ∧ VarInt.decode [0x40] = .panic
    ∧ VarInt.decode [0x80, 1, 2] = .panic
    ∧ VarInt.decode [0xc0, 1, 2, 3, 4, 5, 6] = .panic := by
  decide

/-- Modelled from the spec: `VarInt::add` is absent from the sources
(only its callers are); §4.1 says checked `add` fails with
*value-exceeds-maximum* on overflow above `MAX`. -/
def VarInt.add (a b : Nat) : Except String Nat :=
  if a + b ≤ VarInt.MAX then .ok (a + b) else .error "VarInt value exceeds maximum"

/-- Modelled from the spec: `VarInt::addn(u8)` is absent from the
sources; §4.1 says it fails with *value-exceeds-maximum* on overflow
above `MAX`. -/
def VarInt.addn (a n : Nat) : Except String Nat :=
  if a + n % 256 ≤ VarInt.MAX then .ok (a + n % 256) else .error "VarInt value exceeds maximum"

/-- Modelled from the spec: `VarInt::sub` is absent from the sources;
§4.1 says `sub` below zero fails with *frame-encoding-error*. -/
def VarInt.sub (a b : Nat) : Except String Nat :=
  if b ≤ a then .ok (a - b) else .error "Transport error: FrameEncodingError"

/-! ## Frames (`src/packet/frame.rs`) -/

/-- Model of `ProtocolError::is_protocol_error`. -/
def isProtocolError (code : Nat) : Bool :=
  decide (code ≤ 0x10) || decide (0x100 ≤ code ∧ code ≤ 0x1ff)

/-- A UTF-8 continuation byte. -/
def utf8Cont (b : Nat) : Bool := decide (0x80 ≤ b ∧ b ≤ 0xbf)

/-- Validity of a byte sequence as UTF-8 (RFC 3629); models the success
condition of `String::from_utf8`, which panics through `.unwrap()` on
invalid input. -/
def utf8Valid : List Nat → Bool
  | [] => true
  | b :: bs =>
    if b ≤ 0x7f then utf8Valid bs
    else if 0xc2 ≤ b ∧ b ≤ 0xdf then
      match bs with
      | c :: bs2 => utf8Cont c && utf8Valid bs2
      | [] => false
    else if b = 0xe0 then
      match bs with
      | c :: d :: bs2 => decide (0xa0 ≤ c ∧ c ≤ 0xbf) && utf8Cont d && utf8Valid bs2
      | _ => false
    else if (0xe1 ≤ b ∧ b ≤ 0xec) ∨ b = 0xee ∨ b = 0xef then
      match bs with
      | c :: d :: bs2 => utf8Cont c && utf8Cont d && utf8Valid bs2
      | _ => false
    else if b = 0xed then
      match bs with
      | c :: d :: bs2 => decide (0x80 ≤ c ∧ c ≤ 0x9f) && utf8Cont d && utf8Valid bs2
      | _ => false
    else if b = 0xf0 then
      match bs with
      | c :: d :: e :: bs2 =>
          decide (0x90 ≤ c ∧ c ≤ 0xbf) && utf8Cont d && utf8Cont e && utf8Valid bs2
      | _ => false
    else if 0xf1 ≤ b ∧ b ≤ 0xf3 then
      match bs with
      | c :: d :: e :: bs2 => utf8Cont c && utf8Cont d && utf8Cont e && utf8Valid bs2
      | _ => false
    else if b = 0xf4 then
      match bs with
      | c :: d :: e :: bs2 =>
          decide (0x80 ≤ c ∧ c ≤ 0x8f) && utf8Cont d && utf8Cont e && utf8Valid bs2
      | _ => false
    else false

/-- Model of `ConnectionId` (`src/packet/types.rs`): explicit length byte plus
the identifier bytes. -/
structure ConnectionId where
  cidLen : Nat
  cid : List Nat
deriving DecidableEq, Repr

/-- Model of `StreamType` of MAX_STREAMS / STREAMS_BLOCKED frames. -/
inductive StreamType : Type where
  | bidirectional
  | unidirectional
deriving DecidableEq, Repr

/-- The `Frame` enum: 28 variants.  VarInt fields are `Nat`, byte
buffers are `List Nat`, `SingleBit` fin is `Bool` (`to_inner = 1`
iff `true`), the reason phrase is carried as its UTF-8 bytes. -/
inductive Frame : Type where
  | padding
  | ping
  | ack (largestAcknowledged ackDelay ackRangeCount firstAckRange : Nat)
      (ackRanges : List (Nat × Nat))
  | ackEcn (largestAcknowledged ackDelay ackRangeCount firstAckRange : Nat)
      (ackRanges : List (Nat × Nat)) (ect0Count ect1Count ecnCeCount : Nat)
  | resetStream (streamId appErrorCode finalSize : Nat)
  | stopSending (streamId appErrorCode : Nat)
  | crypto (offset cryptoLength : Nat) (cryptoData : List Nat)
  | newToken (tokenLength : Nat) (token : List Nat)
  | stream (streamId offset length : Nat) (fin : Bool) (streamData : List Nat)
  | maxData (maximumData : Nat)
  | maxStreamData (streamId maxStreamData : Nat)
  | maxStreams (streamType : StreamType) (maxStreams : Nat)
  | dataBlocked (maximumData : Nat)
  | streamDataBlocked (streamId streamDataLimit : Nat)
  | streamsBlocked (streamType : StreamType) (maxStreams : Nat)
  | newConnectionId (sequenceNumber retirePriorTo : Nat) (connectionId : ConnectionId)
      (statelessResetToken : List Nat)
  | retireConnectionId (sequenceNumber : Nat)
  | pathChallenge (data : List Nat)
  | pathResponse (data : List Nat)
  | connectionClose (errorCode : Nat) (frameType : Option Nat)
      (reasonPhraseLength : Nat) (reasonPhrase : List Nat)
  | handshakeDone
deriving DecidableEq, Repr

/-- Model of `Frame::ty`, including its quirks: the STREAM type byte sets OFF
only when `offset == 1`, and CONNECTION_CLOSE picks 0x1c exactly when
`is_protocol_error(error_code)`. -/
def Frame.ty : Frame → Nat
  | .padding => 0x00
  | .ping => 0x01
  | .ack .. => 0x02
  | .ackEcn .. => 0x03
  | .resetStream .. => 0x04
  | .stopSending .. => 0x05
  | .crypto .. => 0x06
  | .newToken .. => 0x07
  | .stream _ offset length fin _ =>
      0x08 + (if fin then 0x01 else 0) + (if 0 < length then 0x02 else 0)
        + (if offset = 1 then 0x04 else 0)
  | .maxData _ => 0x10
  | .maxStreamData .. => 0x11
  | .maxStreams .bidirectional _ => 0x12
  | .maxStreams .unidirectional _ => 0x13
  | .dataBlocked _ => 0x14
  | .streamDataBlocked .. => 0x15
  | .streamsBlocked .bidirectional _ => 0x16
  | .streamsBlocked .unidirectional _ => 0x17
  | .newConnectionId .. => 0x18
  | .retireConnectionId _ => 0x19
  | .pathChallenge _ => 0x1a
  | .pathResponse _ => 0x1b
  | .connectionClose errorCode _ _ _ =>
      if isProtocolError errorCode then 0x1c else 0x1d
  | .handshakeDone => 0x1e

/-- The ack-range loop of `Frame::encode`. -/
def Frame.encodeRanges : List (Nat × Nat) → List Nat
  | [] => []
  | (gap, len) :: rs => VarInt.encode gap ++ VarInt.encode len ++ Frame.encodeRanges rs

/-- Model of `Frame::encode`: the `ty()` byte followed by the per-variant body.
Note the Stream arm pushes a second flags byte (computed with
`offset > 0` for OFF, unlike `ty()`), exactly as the source does. -/
def Frame.encode (f : Frame) : List Nat :=
  Frame.ty f % 256 ::
  match f with
  | .padding | .ping | .handshakeDone => []
  | .ack l d c fr rs =>
      VarInt.encode l ++ VarInt.encode d ++ VarInt.encode c ++ VarInt.encode fr
        ++ Frame.encodeRanges rs
  | .ackEcn l d c fr rs e0 e1 e2 =>
      VarInt.encode l ++ VarInt.encode d ++ VarInt.encode c ++ VarInt.encode fr
        ++ Frame.encodeRanges rs ++ VarInt.encode e0 ++ VarInt.encode e1 ++ VarInt.encode e2
  | .resetStream sid ec fs => VarInt.encode sid ++ VarInt.encode ec ++ VarInt.encode fs
  | .stopSending sid ec => VarInt.encode sid ++ VarInt.encode ec
  | .crypto off len data => VarInt.encode off ++ VarInt.encode len ++ data
  | .newToken tl tok => VarInt.encode tl ++ tok
  | .stream sid off len fin data =>
      ((if fin then 0x01 else 0) + (if 0 < len then 0x02 else 0) + (if 0 < off then 0x04 else 0))
        :: (VarInt.encode sid
          ++ (if 0 < off then VarInt.encode off else [])
          ++ (if 0 < len then VarInt.encode len else [])
          ++ data)
  | .maxData m => VarInt.encode m
  | .maxStreamData sid m => VarInt.encode sid ++ VarInt.encode m
  | .maxStreams _ m => VarInt.encode m
  | .dataBlocked m => VarInt.encode m
  | .streamDataBlocked sid lim => VarInt.encode sid ++ VarInt.encode lim
  | .streamsBlocked _ m => VarInt.encode m
  | .newConnectionId seq rpt cid tok =>
      VarInt.encode seq ++ VarInt.encode rpt ++ [cid.cidLen % 256] ++ cid.cid ++ tok
  | .retireConnectionId seq => VarInt.encode seq
  | .pathChallenge data => data
  | .pathResponse data => data
  | .connectionClose ec ft rlen reason =>
      VarInt.encode ec
        ++ (match ft with | some t => [t % 256] | none => [])
        ++ VarInt.encode rlen ++ reason

/-- The decode loop over `ack_range_count` (gap, length) pairs, with
its running `next_smallest` validation, shared verbatim by the ACK and
ACK_ECN arms of `Frame::decode`. -/
def Frame.decodeAckRanges : Nat → Nat → List Nat → PRes (List (Nat × Nat))
  | 0, _, bs => .ok [] bs
  | n + 1, nextSmallest, bs =>
    (VarInt.decode bs).bind fun gap bs =>
    (VarInt.decode bs).bind fun len bs =>
    qtry (VarInt.addn gap 2) bs fun gap2 bs =>
    if nextSmallest < gap2 then .err "Transport error: FrameEncodingError"
    else
      qtry (VarInt.sub nextSmallest gap2) bs fun ns2 bs =>
      if ns2 < len then .err "Transport error: FrameEncodingError"
      else
        (Frame.decodeAckRanges n ns2 bs).bind fun rs bs =>
        .ok ((gap, len) :: rs) bs

/-- Model of `Frame::decode`.  The first byte is removed (panicking on an empty
buffer) and dispatched; the final catch-all arm of the source is
`unreachable!()`, i.e. a panic. -/
def Frame.decode (bytes : List Nat) : PRes Frame :=
  match bytes with
  | [] => .panic
  | b :: bs =>
    let t := b % 256
    if t = 0x00 then .ok .padding bs
    else if t = 0x01 then .ok .ping bs
    else if t = 0x1e then .ok .handshakeDone bs
    else if t = 0x02 then
      (VarInt.decode bs).bind fun l bs =>
      (VarInt.decode bs).bind fun d bs =>
      (VarInt.decode bs).bind fun c bs =>
      (VarInt.decode bs).bind fun fr bs =>
      qtry (VarInt.sub l fr) bs fun ns bs =>
      (Frame.decodeAckRanges c ns bs).bind fun rs bs =>
      .ok (.ack l d c fr rs) bs
    else if t = 0x03 then
      (VarInt.decode bs).bind fun l bs =>
      (VarInt.decode bs).bind fun d bs =>
      (VarInt.decode bs).bind fun c bs =>
      (VarInt.decode bs).bind fun fr bs =>
      qtry (VarInt.sub l fr) bs fun ns bs =>
      (Frame.decodeAckRanges c ns bs).bind fun rs bs =>
      (VarInt.decode bs).bind fun e0 bs =>
      (VarInt.decode bs).bind fun e1 bs =>
      (VarInt.decode bs).bind fun e2 bs =>
      .ok (.ackEcn l d c fr rs e0 e1 e2) bs
    else if t = 0x04 then
      (VarInt.decode bs).bind fun sid bs =>
      (VarInt.decode bs).bind fun ec bs =>
      (VarInt.decode bs).bind fun fs bs =>
      .ok (.resetStream sid ec fs) bs
    else if t = 0x05 then
      (VarInt.decode bs).bind fun sid bs =>
      (VarInt.decode bs).bind fun ec bs =>
      .ok (.stopSending sid ec) bs
    else if t = 0x06 then
      (VarInt.decode bs).bind fun off bs =>
      (VarInt.decode bs).bind fun len bs =>
      (drainN len bs).bind fun data bs =>
      qtry (VarInt.add off len) bs fun sum bs =>
      -- `2 << 62 - 1` in the source parses as `2 << 61 = 2^62`
      if 2 ^ 62 < sum then .err "Transport error: CryptoBufferExceeded"
      else .ok (.crypto off len data) bs
    else if t = 0x07 then
      (VarInt.decode bs).bind fun tl bs =>
      (drainN tl bs).bind fun tok bs =>
      .ok (.newToken tl tok) bs
    else if 0x08 ≤ t ∧ t ≤ 0x0f then
      (remove0 bs).bind fun sty bs =>
      (VarInt.decode bs).bind fun sid bs' =>
      let fin : Bool := sty % 2 == 1
      (if sty / 4 % 2 = 1 then
          (VarInt.decode bs').bind fun o bs2 => .ok (some o) bs2
        else .ok none bs').bind fun off bs3 =>
      (if sty / 2 % 2 = 1 then
          (VarInt.decode bs3).bind fun ln bs4 => .ok (some ln) bs4
        else .ok none bs3).bind fun len bs5 =>
      (match len with
        | some ln => drainN ln bs5
        | none => .ok bs5 []).bind fun data bs6 =>
      .ok (.stream sid (off.getD 0) (len.getD 0) fin data) bs6
    else if t = 0x10 then
      (VarInt.decode bs).bind fun m bs => .ok (.maxData m) bs
    else if t = 0x11 then
      (VarInt.decode bs).bind fun sid bs =>
      (VarInt.decode bs).bind fun m bs =>
      .ok (.maxStreamData sid m) bs
    else if t = 0x12 then
      (VarInt.decode bs).bind fun m bs => .ok (.maxStreams .bidirectional m) bs
    else if t = 0x13 then
      (VarInt.decode bs).bind fun m bs => .ok (.maxStreams .unidirectional m) bs
    else if t = 0x14 then
      (VarInt.decode bs).bind fun m bs => .ok (.dataBlocked m) bs
    else if t = 0x15 then
      (VarInt.decode bs).bind fun sid bs =>
      (VarInt.decode bs).bind fun lim bs =>
      .ok (.streamDataBlocked sid lim) bs
    else if t = 0x16 then
      (VarInt.decode bs).bind fun m bs => .ok (.streamsBlocked .bidirectional m) bs
    else if t = 0x17 then
      (VarInt.decode bs).bind fun m bs => .ok (.streamsBlocked .unidirectional m) bs
    else if t = 0x18 then
      (VarInt.decode bs).bind fun seq bs =>
      (VarInt.decode bs).bind fun rpt bs =>
      (remove0 bs).bind fun cidLen bs =>
      if cidLen < 1 ∨ 20 < cidLen then .err "Transport error: FrameEncodingError"
      else if seq < rpt then .err "Transport error: FrameEncodingError"
      else
        (drainN cidLen bs).bind fun cid bs =>
        (drainN 16 bs).bind fun tok bs =>
        .ok (.newConnectionId seq rpt ⟨cidLen, cid⟩ tok) bs
    else if t = 0x19 then
      (VarInt.decode bs).bind fun seq bs => .ok (.retireConnectionId seq) bs
    else if t = 0x1a then
      (drainN 8 bs).bind fun data bs => .ok (.pathChallenge data) bs
    else if t = 0x1b then
      (drainN 8 bs).bind fun data bs => .ok (.pathResponse data) bs
    else if t = 0x1c then
      (VarInt.decode bs).bind fun ec bs =>
      (remove0 bs).bind fun ft bs =>
      (VarInt.decode bs).bind fun rlen bs =>
      (drainN rlen bs).bind fun reason bs =>
      if utf8Valid reason then .ok (.connectionClose ec (some ft) rlen reason) bs
      else .panic
    else if t = 0x1d then
      (VarInt.decode bs).bind fun ec bs =>
      (VarInt.decode bs).bind fun rlen bs =>
      (drainN rlen bs).bind fun reason bs =>
      if utf8Valid reason then .ok (.connectionClose ec none rlen reason) bs
      else .panic
    else .panic

/-! ## ACK-range validation -/

/-- The validation recurrence of the spec's §4.3 ACK rule: starting
from `next_smallest`, every `(gap, length)` pair must satisfy
`gap + 2 ≤ next_smallest` and, after decreasing `next_smallest` by
`gap + 2`, `length ≤ next_smallest`. -/
def ackOk : Nat → List (Nat × Nat) → Bool
  | _, [] => true
  | ns, (gap, len) :: rs =>
    decide (gap + 2 ≤ ns) && decide (len ≤ ns - (gap + 2)) && ackOk (ns - (gap + 2)) rs

theorem ackOk_pairBounds : ∀ (rs : List (Nat × Nat)) (ns : Nat), ns ≤ VarInt.MAX →
    ackOk ns rs = true → ∀ p ∈ rs, p.1 + 2 ≤ VarInt.MAX ∧ p.2 ≤ VarInt.MAX := by
  intro rs
  induction rs with
  | nil => intro ns _ _ p hp; simp at hp
  | cons hd tl ih =>
      obtain ⟨g, l⟩ := hd
      intro ns hns hok p hp
      simp only [ackOk, Bool.and_eq_true, decide_eq_true_eq] at hok
      obtain ⟨⟨hg, hl⟩, htl⟩ := hok
      rcases List.mem_cons.mp hp with hp | hp
      · subst hp; constructor <;> omega
      · exact ih (ns - (g + 2)) (by omega) htl p hp

theorem drainN_append (xs rest : List Nat) : drainN xs.length (xs ++ rest) = .ok xs rest := by
  simp [drainN]

theorem drainN_self (xs : List Nat) : drainN xs.length xs = .ok xs [] := by
  simpa using drainN_append xs []

theorem VarInt.decode_encode_nil {v : Nat} (h : v ≤ VarInt.MAX) :
    VarInt.decode (VarInt.encode v) = .ok v [] := by
  simpa using VarInt.decode_encode h []

/-- Decoding the encoded range list mirrors the validation recurrence:
it returns the ranges as read when `ackOk` holds, and the
frame-encoding error at the first violated check otherwise. -/
theorem decodeAckRanges_encodeRanges : ∀ (rs : List (Nat × Nat)) (ns : Nat) (rest : List Nat),
    ns ≤ VarInt.MAX →
    (∀ p ∈ rs, p.1 + 2 ≤ VarInt.MAX ∧ p.2 ≤ VarInt.MAX) →
    Frame.decodeAckRanges rs.length ns (Frame.encodeRanges rs ++ rest)
      = if ackOk ns rs then .ok rs rest else .err "Transport error: FrameEncodingError" := by
  intro rs
  induction rs with
  | nil => intro ns rest _ _; simp [Frame.decodeAckRanges, Frame.encodeRanges, ackOk]
  | cons hd tl ih =>
      obtain ⟨g, l⟩ := hd
      intro ns rest hns hp
      obtain ⟨hg2, hl⟩ := hp (g, l) (by simp)
      simp only at hg2 hl
      have hg : g ≤ VarInt.MAX := by omega
      have haddn : VarInt.addn g 2 = Except.ok (g + 2) := by
        unfold VarInt.addn
        rw [if_pos (show g + 2 % 256 ≤ VarInt.MAX by omega)]
      show Frame.decodeAckRanges (tl.length + 1) ns _ = _
      simp only [Frame.encodeRanges, List.append_assoc, Frame.decodeAckRanges,
        VarInt.decode_encode hg, PRes.bind_ok, VarInt.decode_encode hl, haddn, qtry_ok]
      by_cases hgap : ns < g + 2
      · rw [if_pos hgap, if_neg]
        simp only [ackOk, Bool.and_eq_true, decide_eq_true_eq]
        omega
      · have hsub : VarInt.sub ns (g + 2) = Except.ok (ns - (g + 2)) := by
          unfold VarInt.sub
          rw [if_pos (show g + 2 ≤ ns by omega)]
        rw [if_neg hgap]
        simp only [hsub, qtry_ok]
        by_cases hlen : ns - (g + 2) < l
        · rw [if_pos hlen, if_neg]
          simp only [ackOk, Bool.and_eq_true, decide_eq_true_eq]
          omega
        · rw [if_neg hlen,
            ih (ns - (g + 2)) rest (by omega) (fun p hmem => hp p (by simp [hmem]))]
          by_cases hok : ackOk (ns - (g + 2)) tl = true
          · rw [if_pos hok, if_pos]
            · rfl
            · simp only [ackOk, Bool.and_eq_true, decide_eq_true_eq]
              exact ⟨⟨by omega, by omega⟩, hok⟩
          · rw [if_neg hok, if_neg]
            · exact PRes.bind_err _ _
            · simp only [ackOk, Bool.and_eq_true, decide_eq_true_eq]
              intro hcon
              exact hok hcon.2

/-- Internal consistency of a frame value: every VarInt field fits in
62 bits, every explicit length or count field equals the length of the
buffer or list it describes, ACK ranges satisfy the decoder's
validation, CRYPTO offsets fit, NEW_CONNECTION_ID and
CONNECTION_CLOSE satisfy the decoder's checks, and fixed-size byte
arrays have their fixed size. -/
def Frame.wf : Frame → Bool
  | .padding | .ping | .handshakeDone => true
  | .ack l d c fr rs =>
      decide (l ≤ VarInt.MAX) && decide (d ≤ VarInt.MAX) && decide (c ≤ VarInt.MAX)
        && decide (fr ≤ l) && decide (c = rs.length) && ackOk (l - fr) rs
  | .ackEcn l d c fr rs e0 e1 e2 =>
      decide (l ≤ VarInt.MAX) && decide (d ≤ VarInt.MAX) && decide (c ≤ VarInt.MAX)
        && decide (fr ≤ l) && decide (c = rs.length) && ackOk (l - fr) rs
        && decide (e0 ≤ VarInt.MAX) && decide (e1 ≤ VarInt.MAX) && decide (e2 ≤ VarInt.MAX)
  | .resetStream a b c =>
      decide (a ≤ VarInt.MAX) && decide (b ≤ VarInt.MAX) && decide (c ≤ VarInt.MAX)
  | .stopSending a b => decide (a ≤ VarInt.MAX) && decide (b ≤ VarInt.MAX)
  | .crypto off len data => decide (off + len ≤ VarInt.MAX) && decide (len = data.length)
  | .newToken tl tok => decide (tl ≤ VarInt.MAX) && decide (tl = tok.length)
  | .stream sid off len _ data =>
      decide (sid ≤ VarInt.MAX) && decide (off ≤ VarInt.MAX) && decide (len ≤ VarInt.MAX)
        && (decide (len = 0) || decide (len = data.length))
  | .maxData m => decide (m ≤ VarInt.MAX)
  | .maxStreamData a b => decide (a ≤ VarInt.MAX) && decide (b ≤ VarInt.MAX)
  | .maxStreams _ m => decide (m ≤ VarInt.MAX)
  | .dataBlocked m => decide (m ≤ VarInt.MAX)
  | .streamDataBlocked a b => decide (a ≤ VarInt.MAX) && decide (b ≤ VarInt.MAX)
  | .streamsBlocked _ m => decide (m ≤ VarInt.MAX)
  | .newConnectionId seq rpt cid tok =>
      decide (seq ≤ VarInt.MAX) && decide (rpt ≤ seq)
        && decide (1 ≤ cid.cidLen) && decide (cid.cidLen ≤ 20)
        && decide (cid.cid.length = cid.cidLen) && decide (tok.length = 16)
  | .retireConnectionId s => decide (s ≤ VarInt.MAX)
  | .pathChallenge d => decide (d.length = 8)
  | .pathResponse d => decide (d.length = 8)
  | .connectionClose ec ft rlen reason =>
      decide (ec ≤ VarInt.MAX) && decide (rlen ≤ VarInt.MAX) && decide (rlen = reason.length)
        && utf8Valid reason && (ft.isSome == isProtocolError ec)
        && (match ft with | some t => decide (t < 256) | none => true)

/-- C1 (amended): `Frame::decode ∘ Frame::encode` is the identity on
every internally consistent frame, consuming the whole buffer. -/
theorem c1_frame_roundtrip (f : Frame) (h : Frame.wf f = true) :
    Frame.decode (Frame.encode f) = .ok f [] := by
  cases f with
  | padding => rfl
  | ping => rfl
  | handshakeDone => rfl
  | ack l d c fr rs =>
      simp only [Frame.wf, Bool.and_eq_true, decide_eq_true_eq] at h
      obtain ⟨⟨⟨⟨⟨hl, hd⟩, hc⟩, hfr⟩, hcnt⟩, hok⟩ := h
      have hfrM : fr ≤ VarInt.MAX := le_trans hfr hl
      have hnsM : l - fr ≤ VarInt.MAX := by omega
      have hsub : VarInt.sub l fr = Except.ok (l - fr) := by
        unfold VarInt.sub; rw [if_pos hfr]
      have hbounds := ackOk_pairBounds rs (l - fr) hnsM hok
      have hloop := decodeAckRanges_encodeRanges rs (l - fr) [] hnsM hbounds
      rw [List.append_nil] at hloop
      subst hcnt
      simp [Frame.encode, Frame.ty, Frame.decode, List.append_assoc,
        VarInt.decode_encode hl, VarInt.decode_encode hd, VarInt.decode_encode hc,
        VarInt.decode_encode hfrM, hsub, hloop, hok]
  | ackEcn l d c fr rs e0 e1 e2 =>
      simp only [Frame.wf, Bool.and_eq_true, decide_eq_true_eq] at h
      obtain ⟨⟨⟨⟨⟨⟨⟨⟨hl, hd⟩, hc⟩, hfr⟩, hcnt⟩, hok⟩, he0⟩, he1⟩, he2⟩ := h
      have hfrM : fr ≤ VarInt.MAX := le_trans hfr hl
      have hnsM : l - fr ≤ VarInt.MAX := by omega
      have hsub : VarInt.sub l fr = Except.ok (l - fr) := by
        unfold VarInt.sub; rw [if_pos hfr]
      have hbounds := ackOk_pairBounds rs (l - fr) hnsM hok
      have hloop := decodeAckRanges_encodeRanges rs (l - fr)
        (VarInt.encode e0 ++ (VarInt.encode e1 ++ VarInt.encode e2)) hnsM hbounds
      subst hcnt
      simp [Frame.encode, Frame.ty, Frame.decode, List.append_assoc,
        VarInt.decode_encode hl, VarInt.decode_encode hd, VarInt.decode_encode hc,
        VarInt.decode_encode hfrM, hsub, hloop, hok, VarInt.decode_encode he0,
        VarInt.decode_encode he1, VarInt.decode_encode_nil he2]
  | resetStream a b c =>
      simp only [Frame.wf, Bool.and_eq_true, decide_eq_true_eq] at h
      obtain ⟨⟨ha, hb⟩, hc⟩ := h
      simp [Frame.encode, Frame.ty, Frame.decode, List.append_assoc,
        VarInt.decode_encode ha, VarInt.decode_encode hb, VarInt.decode_encode_nil hc]
  | stopSending a b =>
      simp only [Frame.wf, Bool.and_eq_true, decide_eq_true_eq] at h
      obtain ⟨ha, hb⟩ := h
      simp [Frame.encode, Frame.ty, Frame.decode, List.append_assoc,
        VarInt.decode_encode ha, VarInt.decode_encode_nil hb]
  | crypto off len data =>
      simp only [Frame.wf, Bool.and_eq_true, decide_eq_true_eq] at h
      obtain ⟨hsum, hlen⟩ := h
      have hoff : off ≤ VarInt.MAX := by omega
      have hlenM : len ≤ VarInt.MAX := by omega
      have hadd : VarInt.add off len = Except.ok (off + len) := by
        unfold VarInt.add; rw [if_pos hsum]
      have hM : VarInt.MAX = 2 ^ 62 - 1 := rfl
      subst hlen
      simp [Frame.encode, Frame.ty, Frame.decode, List.append_assoc,
        VarInt.decode_encode hoff, VarInt.decode_encode hlenM, drainN_self, hadd]
      omega
  | newToken tl tok =>
      simp only [Frame.wf, Bool.and_eq_true, decide_eq_true_eq] at h
      obtain ⟨htl, hlen⟩ := h
      subst hlen
      simp [Frame.encode, Frame.ty, Frame.decode, List.append_assoc,
        VarInt.decode_encode htl, drainN_self]
  | stream sid off len fin data =>
      simp only [Frame.wf, Bool.and_eq_true, Bool.or_eq_true, decide_eq_true_eq] at h
      obtain ⟨⟨⟨hsid, hoff⟩, hlenM⟩, hdisj⟩ := h
      by_cases hl0 : len = 0
      · subst hl0
        by_cases ho0 : off = 0
        · subst ho0
          cases fin <;>
            simp [Frame.encode, Frame.ty, Frame.decode, remove0, List.append_assoc,
              VarInt.decode_encode hsid, VarInt.decode_encode_nil hsid]
        · by_cases ho1 : off = 1
          · subst ho1
            cases fin <;>
              simp [Frame.encode, Frame.ty, Frame.decode, remove0, List.append_assoc,
                VarInt.decode_encode hsid, VarInt.decode_encode hoff,
                VarInt.decode_encode_nil hoff]
          · have hpos : 0 < off := by omega
            cases fin <;>
              simp [Frame.encode, Frame.ty, Frame.decode, remove0, List.append_assoc, ho1, hpos,
                VarInt.decode_encode hsid, VarInt.decode_encode hoff,
                VarInt.decode_encode_nil hoff]
      · have hlen : len = data.length := by
          rcases hdisj with h0 | hd
          · exact absurd h0 hl0
          · exact hd
        have hlpos : 0 < len := by omega
        subst hlen
        by_cases ho0 : off = 0
        · subst ho0
          cases fin <;>
            simp [Frame.encode, Frame.ty, Frame.decode, remove0, List.append_assoc, hlpos,
              VarInt.decode_encode hsid, VarInt.decode_encode hlenM,
              VarInt.decode_encode_nil hlenM, drainN_self]
        · by_cases ho1 : off = 1
          · subst ho1
            cases fin <;>
              simp [Frame.encode, Frame.ty, Frame.decode, remove0, List.append_assoc, hlpos,
                VarInt.decode_encode hsid, VarInt.decode_encode hoff,
                VarInt.decode_encode hlenM, drainN_self]
          · have hpos : 0 < off := by omega
            cases fin <;>
              simp [Frame.encode, Frame.ty, Frame.decode, remove0, List.append_assoc, ho1, hpos,
                hlpos, VarInt.decode_encode hsid, VarInt.decode_encode hoff,
                VarInt.decode_encode hlenM, drainN_self]
  | maxData m =>
      simp only [Frame.wf, decide_eq_true_eq] at h
      simp [Frame.encode, Frame.ty, Frame.decode, VarInt.decode_encode_nil h]
  | maxStreamData a b =>
      simp only [Frame.wf, Bool.and_eq_true, decide_eq_true_eq] at h
      obtain ⟨ha, hb⟩ := h
      simp [Frame.encode, Frame.ty, Frame.decode, List.append_assoc,
        VarInt.decode_encode ha, VarInt.decode_encode_nil hb]
  | maxStreams st m =>
      simp only [Frame.wf, decide_eq_true_eq] at h
      cases st <;>
        simp [Frame.encode, Frame.ty, Frame.decode, VarInt.decode_encode_nil h]
  | dataBlocked m =>
      simp only [Frame.wf, decide_eq_true_eq] at h
      simp [Frame.encode, Frame.ty, Frame.decode, VarInt.decode_encode_nil h]
  | streamDataBlocked a b =>
      simp only [Frame.wf, Bool.and_eq_true, decide_eq_true_eq] at h
      obtain ⟨ha, hb⟩ := h
      simp [Frame.encode, Frame.ty, Frame.decode, List.append_assoc,
        VarInt.decode_encode ha, VarInt.decode_encode_nil hb]
  | streamsBlocked st m =>
      simp only [Frame.wf, decide_eq_true_eq] at h
      cases st <;>
        simp [Frame.encode, Frame.ty, Frame.decode, VarInt.decode_encode_nil h]
  | newConnectionId seq rpt cid tok =>
      obtain ⟨cl, cbytes⟩ := cid
      simp only [Frame.wf, Bool.and_eq_true, decide_eq_true_eq] at h
      obtain ⟨⟨⟨⟨⟨hseq, hrpt⟩, h1⟩, h20⟩, hclen⟩, htok⟩ := h
      subst hclen
      have hrptM : rpt ≤ VarInt.MAX := le_trans hrpt hseq
      have hmod : cbytes.length % 256 = cbytes.length := by omega
      have hdrain16 : drainN 16 tok = .ok tok [] := by rw [← htok]; exact drainN_self tok
      have hnotnil : ¬ (cbytes = [] ∨ 20 < cbytes.length) := by
        rintro (hnil | hbig)
        · subst hnil; simp at h1
        · omega
      simp [Frame.encode, Frame.ty, Frame.decode, remove0, List.append_assoc, hmod,
        VarInt.decode_encode hseq, VarInt.decode_encode hrptM, hnotnil,
        Nat.not_lt.mpr hrpt, drainN_append, hdrain16]
  | retireConnectionId s =>
      simp only [Frame.wf, decide_eq_true_eq] at h
      simp [Frame.encode, Frame.ty, Frame.decode, VarInt.decode_encode_nil h]
  | pathChallenge d =>
      simp only [Frame.wf, decide_eq_true_eq] at h
      simp [Frame.encode, Frame.ty, Frame.decode, ← h, drainN_self]
  | pathResponse d =>
      simp only [Frame.wf, decide_eq_true_eq] at h
      simp [Frame.encode, Frame.ty, Frame.decode, ← h, drainN_self]
  | connectionClose ec ft rlen reason =>
      cases ft with
      | some t =>
          simp only [Frame.wf, Bool.and_eq_true, decide_eq_true_eq, beq_iff_eq,
            Option.isSome_some] at h
          obtain ⟨⟨⟨⟨⟨hec, hrlen⟩, hrl⟩, hutf⟩, hsome⟩, hft⟩ := h
          subst hrl
          have hproto : isProtocolError ec = true := hsome.symm
          have hmod : t % 256 = t := by omega
          simp [Frame.encode, Frame.ty, Frame.decode, remove0, List.append_assoc, hproto, hmod,
            VarInt.decode_encode hec, VarInt.decode_encode hrlen, drainN_self, hutf]
      | none =>
          simp only [Frame.wf, Bool.and_eq_true, decide_eq_true_eq, beq_iff_eq,
            Option.isSome_none] at h
          obtain ⟨⟨⟨⟨⟨hec, hrlen⟩, hrl⟩, hutf⟩, hsome⟩, -⟩ := h
          subst hrl
          have hproto : isProtocolError ec = false := hsome.symm
          simp [Frame.encode, Frame.ty, Frame.decode, List.append_assoc, hproto,
            VarInt.decode_encode hec, VarInt.decode_encode hrlen, drainN_self, hutf]

/-- C1 counterexample: the constructible ACK frame with
`largest_ack = 0`, `range_count = 1`, `first_range = 0` and the single
range `(0, 0)` re-decodes to a frame-encoding error (`gap + 2 = 2 >
next_smallest = 0`), so `decode(encode(x)) = x` fails for this
constructible Frame value. -/
theorem c1_counterexample :
    Frame.decode (Frame.encode (.ack 0 0 1 0 [(0, 0)]))
        = .err "Transport error: FrameEncodingError"
    ∧ Frame.decode (Frame.encode (.ack 0 0 1 0 [(0, 0)]))
        ≠ .ok (.ack 0 0 1 0 [(0, 0)]) [] := by
  decide

/-- C1 witness: the round trip at the CRYPTO frame used by the repo's
own packet test. -/
theorem c1_witness :
    Frame.wf (.crypto 2 10 [1, 0, 1, 0, 1, 0, 1, 0, 1, 0]) = true
    ∧ Frame.decode (Frame.encode (.crypto 2 10 [1, 0, 1, 0, 1, 0, 1, 0, 1, 0]))
        = .ok (.crypto 2 10 [1, 0, 1, 0, 1, 0, 1, 0, 1, 0]) [] :=
  ⟨by decide, c1_frame_roundtrip _ (by decide)⟩

/-- C4 (amended): decoding an encoded ACK or ACK_ECN frame runs the
`next_smallest` recurrence exactly as the claim states — succeeding
with the ranges as read when every check passes and failing with
frame-encoding-error at the first violated check — provided each
`gap + 2` fits below `2^62`; a gap with `gap + 2 > 2^62 - 1` instead
fails with value-exceeds-maximum from the checked `addn` (see the
counterexample). -/
theorem c4_ack_validation :
    ∀ (l d c fr e0 e1 e2 : Nat) (rs : List (Nat × Nat)),
    l ≤ VarInt.MAX → d ≤ VarInt.MAX → c ≤ VarInt.MAX → fr ≤ l → c = rs.length →
    (∀ p ∈ rs, p.1 + 2 ≤ VarInt.MAX ∧ p.2 ≤ VarInt.MAX) →
    e0 ≤ VarInt.MAX → e1 ≤ VarInt.MAX → e2 ≤ VarInt.MAX →
    (Frame.decode (Frame.encode (.ack l d c fr rs))
        = if ackOk (l - fr) rs then .ok (.ack l d c fr rs) []
          else .err "Transport error: FrameEncodingError")
    ∧ (Frame.decode (Frame.encode (.ackEcn l d c fr rs e0 e1 e2))
        = if ackOk (l - fr) rs then .ok (.ackEcn l d c fr rs e0 e1 e2) []
          else .err "Transport error: FrameEncodingError") := by
  intro l d c fr e0 e1 e2 rs hl hd hc hfr hcnt hp he0 he1 he2
  have hfrM : fr ≤ VarInt.MAX := le_trans hfr hl
  have hnsM : l - fr ≤ VarInt.MAX := by omega
  have hsub : VarInt.sub l fr = Except.ok (l - fr) := by
    unfold VarInt.sub; rw [if_pos hfr]
  have hloopNil := decodeAckRanges_encodeRanges rs (l - fr) [] hnsM hp
  rw [List.append_nil] at hloopNil
  have hloopE := decodeAckRanges_encodeRanges rs (l - fr)
      (VarInt.encode e0 ++ (VarInt.encode e1 ++ VarInt.encode e2)) hnsM hp
  subst hcnt
  constructor
  · by_cases hok : ackOk (l - fr) rs = true
    · simp [Frame.encode, Frame.ty, Frame.decode, List.append_assoc,
        VarInt.decode_encode hl, VarInt.decode_encode hd, VarInt.decode_encode hc,
        VarInt.decode_encode hfrM, hsub, hloopNil, hok]
    · simp only [Bool.not_eq_true] at hok
      simp [Frame.encode, Frame.ty, Frame.decode, List.append_assoc,
        VarInt.decode_encode hl, VarInt.decode_encode hd, VarInt.decode_encode hc,
        VarInt.decode_encode hfrM, hsub, hloopNil, hok]
  · by_cases hok : ackOk (l - fr) rs = true
    · simp [Frame.encode, Frame.ty, Frame.decode, List.append_assoc,
        VarInt.decode_encode hl, VarInt.decode_encode hd, VarInt.decode_encode hc,
        VarInt.decode_encode hfrM, hsub, hloopE, hok, VarInt.decode_encode he0,
        VarInt.decode_encode he1, VarInt.decode_encode_nil he2]
    · simp only [Bool.not_eq_true] at hok
      simp [Frame.encode, Frame.ty, Frame.decode, List.append_assoc,
        VarInt.decode_encode hl, VarInt.decode_encode hd, VarInt.decode_encode hc,
        VarInt.decode_encode hfrM, hsub, hloopE, hok]

/-- C4 counterexample: an ACK frame whose single range has
`gap = 2^62 - 2` (so `gap + 2 > next_smallest = 0`, which by the claim
must give frame-encoding-error) decodes to the value-exceeds-maximum
error instead, because `gap.addn(2)` overflows `VarInt::MAX` first. -/
theorem c4_counterexample :
    Frame.decode ([0x02] ++ VarInt.encode 0 ++ VarInt.encode 0 ++ VarInt.encode 1
        ++ VarInt.encode 0 ++ VarInt.encode (2 ^ 62 - 2) ++ VarInt.encode 0)
      = .err "VarInt value exceeds maximum"
    ∧ ("VarInt value exceeds maximum" : String) ≠ "Transport error: FrameEncodingError" := by
  decide

/-- C4 witness: the validation at a concrete passing ACK / ACK_ECN
pair (`largest = 10`, `first_range = 2`, ranges `[(1,2),(0,1)]`). -/
theorem c4_witness :
    (Frame.decode (Frame.encode (.ack 10 0 2 2 [(1, 2), (0, 1)]))
        = if ackOk (10 - 2) [(1, 2), (0, 1)] then .ok (.ack 10 0 2 2 [(1, 2), (0, 1)]) []
          else .err "Transport error: FrameEncodingError")
    ∧ (Frame.decode (Frame.encode (.ackEcn 10 0 2 2 [(1, 2), (0, 1)] 3 4 5))
        = if ackOk (10 - 2) [(1, 2), (0, 1)] then .ok (.ackEcn 10 0 2 2 [(1, 2), (0, 1)] 3 4 5) []
          else .err "Transport error: FrameEncodingError") :=
  c4_ack_validation 10 0 2 2 3 4 5 [(1, 2), (0, 1)] (by decide) (by decide) (by decide)
    (by decide) (by decide) (by decide) (by decide) (by decide) (by decide)

/-- C5: a CRYPTO frame with `offset + length > 2^62 - 1` fails, but
with the value-exceeds-maximum error from the checked `offset.add`
rather than crypto-buffer-exceeded — the source compares against
`2 << 62 - 1`, i.e. `2^62`, a bound the checked add makes unreachable —
while a CRYPTO frame with `offset + length ≤ 2^62 - 1` and sufficient
data decodes successfully. -/
theorem c5_crypto_error_kind :
    Frame.decode ([0x06] ++ VarInt.encode (2 ^ 62 - 1) ++ VarInt.encode 1 ++ [0xaa])
        = .err "VarInt value exceeds maximum"
    ∧ Frame.decode ([0x06] ++ VarInt.encode 2 ++ VarInt.encode 3 ++ [1, 2, 3])
        = .ok (.crypto 2 3 [1, 2, 3]) []
    ∧ ("VarInt value exceeds maximum" : String) ≠ "Transport error: CryptoBufferExceeded" := by
  decide

/-- C6 counterexample: for the STREAM frame with `stream_id = 5`,
`offset = 2`, `length = 1`, `fin = 0`, one data byte, the claim
predicts the single type byte 0x0E (OFF set, offset present) followed
directly by the stream id; the code instead emits type byte 0x0A (OFF
clear, since `ty()` tests `offset == 1`) followed by a second flags
byte 0x06. -/
theorem c6_counterexample :
    Frame.encode (.stream 5 2 1 false [0xab]) = [0x0a, 0x06, 0x05, 0x02, 0x01, 0xab]
    ∧ ([0x0a, 0x06, 0x05, 0x02, 0x01, 0xab] : List Nat) ≠ [0x0e, 0x05, 0x02, 0x01, 0xab] := by
  decide

/-- C6 (amended): a STREAM frame encodes to the `ty()` byte — in
0x08–0x0F with FIN=0x01 set iff fin, LEN=0x02 set iff a length is
present, but OFF=0x04 set iff `offset == 1` — followed by a second
flags byte (low three bits: FIN iff fin, LEN iff length present, OFF
iff offset present), then the VarInt stream_id, the offset VarInt if
the offset is present, the length VarInt if a length is present, then
the stream data. -/
theorem c6_stream_encoding (sid off len : Nat) (fin : Bool) (data : List Nat) :
    Frame.encode (.stream sid off len fin data)
      = (0x08 + (if fin then 0x01 else 0) + (if 0 < len then 0x02 else 0)
            + (if off = 1 then 0x04 else 0))
        :: ((if fin then 0x01 else 0) + (if 0 < len then 0x02 else 0)
            + (if 0 < off then 0x04 else 0))
        :: (VarInt.encode sid ++ (if 0 < off then VarInt.encode off else [])
            ++ (if 0 < len then VarInt.encode len else []) ++ data)
    ∧ 0x08 ≤ Frame.ty (.stream sid off len fin data)
    ∧ Frame.ty (.stream sid off len fin data) ≤ 0x0f := by
  refine ⟨?_, ?_, ?_⟩
  · simp only [Frame.encode, Frame.ty]
    rw [Nat.mod_eq_of_lt (by split_ifs <;> omega)]
  · simp only [Frame.ty]
    split_ifs <;> omega
  · simp only [Frame.ty]
    split_ifs <;> omega

/-- C9: a first byte that is not one of the 26 defined frame-type
bytes and not in the STREAM range — i.e. any byte in 0x1F–0xFF — hits
the decoder's `unreachable!()` catch-all and panics instead of
returning a frame-encoding error. -/
theorem c9_unknown_type_panics (b : Nat) (bs : List Nat) (h1 : 0x1f ≤ b) (h2 : b ≤ 0xff) :
    Frame.decode (b :: bs) = .panic := by
  have hmod : b % 256 = b := by omega
  simp only [Frame.decode, hmod]
  repeat rw [if_neg (by omega)]

/-- C9 witness: the bytes 0x1F and 0xFF from the claim. -/
theorem c9_witness : (0x1f ≤ (0x1f : Nat) ∧ (0x1f : Nat) ≤ 0xff
      ∧ Frame.decode [0x1f] = .panic)
    ∧ (0x1f ≤ (0xff : Nat) ∧ (0xff : Nat) ≤ 0xff ∧ Frame.decode [0xff] = .panic) :=
  ⟨⟨by decide, by decide, c9_unknown_type_panics 0x1f [] (by decide) (by decide)⟩,
    ⟨by decide, by decide, c9_unknown_type_panics 0xff [] (by decide) (by decide)⟩⟩

/-! ## Bit fields (`src/bits.rs`) and headers (`src/packet/header.rs`)

A `Bits<N, u8>` value is its `bits` array, a `List Bool` with index 0
holding the least significant bit (as `Bits::from` and `to_inner`
define it). -/

/-- Model of `Bits::to_inner`: the sum of `bits[i] << i`. -/
def bitsToInner (bs : List Bool) : Nat :=
  bs.foldr (fun b acc => (if b then 1 else 0) + 2 * acc) 0

/-- Modelled from the spec: `Bits::invert` is absent from the sources
(only its callers in `ShortHeader::decode` and `Packet` are); §4.2
says it "flips all bits". -/
def bitsInvert (bs : List Bool) : List Bool := bs.map (fun b => !b)

/-- The per-field loop of `decompose_bits`: peel `n` bits from the
least-significant end of `source`, returning them LSB-first along with
the shifted-down remainder. -/
def decomposeBitsGo : Nat → Nat → List Bool × Nat
  | src, 0 => ([], src)
  | src, n + 1 =>
      let r := decomposeBitsGo (src / 2) n
      (decide (src % 2 = 1) :: r.1, r.2)

/-- Model of `decompose_bits`: split a byte into groups of the given widths,
consuming the least significant bits first. -/
def decomposeBits : Nat → List Nat → List (List Bool)
  | _, [] => []
  | src, len :: lens =>
      let r := decomposeBitsGo src len
      r.1 :: decomposeBits r.2 lens

/-- Model of `u8::reverse_bits`. -/
def reverseBits8 (x : Nat) : Nat :=
  (List.range 8).foldl (fun acc i => acc + x / 2 ^ i % 2 * 2 ^ (7 - i)) 0

/-- The accumulation loop of `compose_bits`:
`target |= bit << (7 - i)`. -/
def composeBitsGo : Nat → List Bool → Nat
  | _, [] => 0
  | i, b :: bs => (if b then 2 ^ (7 - i) else 0) + composeBitsGo (i + 1) bs

/-- Model of `compose_bits`: pack the bit vector with the first element at bit
7, then `u8::reverse_bits` the result. -/
def composeBits (bv : List Bool) : Nat := reverseBits8 (composeBitsGo 0 bv)

/-- Model of `u32::to_le_bytes`. -/
def u32le (v : Nat) : List Nat :=
  [v % 256, v / 2 ^ 8 % 256, v / 2 ^ 16 % 256, v / 2 ^ 24 % 256]

/-- Model of `LongHeaderExtension`; the `PacketNumber` fields carry the inner
VarInt value. -/
inductive LongHeaderExtension : Type where
  | initial (tokenLength : Nat) (token : List Nat) (length : Nat) (packetNumber : Nat)
  | zeroRTT (length packetNumber : Nat)
  | handshake (length packetNumber : Nat)
  | retry (retryToken : List Nat) (retryIntegrityTag : List Nat)
  | versionNegotiation (supportedVersions : List Nat)
deriving DecidableEq, Repr

/-- The `chunks(4)` + `u32::from_le_bytes` + `try_into().expect` read
of a version-negotiation extension: `none` models the panic on a
trailing chunk shorter than 4 bytes. -/
def readVersionsLE : List Nat → Option (List Nat)
  | [] => some []
  | a :: b :: c :: d :: rest =>
      (readVersionsLE rest).map
        (fun vs => (a + 256 * b + 65536 * c + 16777216 * d) :: vs)
  | _ => none

/-- Model of `LongHeaderExtension::encode` (its `QuicheResult` wrapper is
always `Ok`; the byte layout is returned directly). -/
def LongHeaderExtension.encode : LongHeaderExtension → List Nat
  | .initial tl tok len pn => VarInt.encode tl ++ tok ++ VarInt.encode len ++ VarInt.encode pn
  | .zeroRTT len pn => VarInt.encode len ++ VarInt.encode pn
  | .handshake len pn => VarInt.encode len ++ VarInt.encode pn
  | .retry tok tag => tok ++ tag
  | .versionNegotiation vs => vs.foldr (fun v acc => u32le v ++ acc) []

/-- Model of `LongHeaderExtension::decode`, dispatched on the computed
extension type.  The Retry arm's `bytes.len() - 16` underflows (and
so panics) when fewer than 16 bytes remain. -/
def LongHeaderExtension.decode (bytes : List Nat) (ty : Nat) : PRes LongHeaderExtension :=
  if ty = 0 then
    (VarInt.decode bytes).bind fun tl bs =>
    (drainN tl bs).bind fun tok bs =>
    (VarInt.decode bs).bind fun len bs =>
    (VarInt.decode bs).bind fun pn bs =>
    .ok (.initial tl tok len pn) bs
  else if ty = 1 then
    (VarInt.decode bytes).bind fun len bs =>
    (VarInt.decode bs).bind fun pn bs =>
    .ok (.zeroRTT len pn) bs
  else if ty = 2 then
    (VarInt.decode bytes).bind fun len bs =>
    (VarInt.decode bs).bind fun pn bs =>
    .ok (.handshake len pn) bs
  else if ty = 3 then
    if bytes.length < 16 then .panic
    else
      (drainN (bytes.length - 16) bytes).bind fun tok tag =>
      .ok (.retry tok tag) []
  else if ty = 4 then
    match readVersionsLE bytes with
    | some vs => .ok (.versionNegotiation vs) []
    | none => .panic
  else .panic

/-- Model of `LongHeader`: bit fields, little-endian version, two
length-prefixed connection IDs, extension. -/
structure LongHeader where
  headerForm : List Bool
  fixedBit : List Bool
  longPacketType : List Bool
  typeSpecificBits : List Bool
  versionId : Nat
  dstCid : ConnectionId
  srcCid : ConnectionId
  extension : LongHeaderExtension
deriving DecidableEq, Repr

/-- Model of `ShortHeader`. -/
structure ShortHeader where
  headerForm : List Bool
  fixedBit : List Bool
  spinBit : List Bool
  reservedBits : List Bool
  keyPhase : List Bool
  numberLen : List Bool
  dstCid : ConnectionId
  number : List Nat
deriving DecidableEq, Repr

/-- The `Header` enum. -/
inductive Header : Type where
  | initial (h : LongHeader)
  | retry (h : LongHeader)
  | versionNegotiate (h : LongHeader)
  | long (h : LongHeader)
  | short (h : ShortHeader)
deriving DecidableEq, Repr

/-- Model of `LongHeader::len` with its `require(len <= 47)` check. -/
def LongHeader.len (h : LongHeader) : Except String Nat :=
  if 1 + 4 + 1 + h.dstCid.cidLen + 1 + h.srcCid.cidLen ≤ 47 then
    .ok (1 + 4 + 1 + h.dstCid.cidLen + 1 + h.srcCid.cidLen)
  else .error "LongHeader length must not exceed 47 bytes"

/-- Model of `LongHeader::encode`: first byte composed from
`[header_form, fixed_bit, long_packet_type, type_specific_bits]`, then
little-endian version, the two length-prefixed CIDs, and the extension
bytes.  `Vec::with_capacity(self.len()?)` propagates the length-bound
error. -/
def LongHeader.encode (h : LongHeader) : Except String (List Nat) :=
  match h.len with
  | .error m => .error m
  | .ok _ =>
      .ok (composeBits (h.headerForm ++ h.fixedBit ++ h.longPacketType ++ h.typeSpecificBits)
        :: (u32le h.versionId
          ++ h.dstCid.cidLen % 256 :: h.dstCid.cid
          ++ h.srcCid.cidLen % 256 :: h.srcCid.cid
          ++ LongHeaderExtension.encode h.extension))

/-- Model of `LongHeader::decode`: split the first byte with widths
`[4, 2, 1, 1]` (so the form bit is read from the MSB), reverse the
two multi-bit groups, read version and CIDs, decode the extension
selected by `(long_packet_type, fixed_bit)`, and require that the
whole buffer was consumed. -/
def LongHeader.decode (bytes : List Nat) : PRes Header :=
  (remove0 bytes).bind fun firstByte bs =>
  let bitvec := decomposeBits (firstByte % 256) [4, 2, 1, 1]
  let headerForm := bitvec.getD 3 []
  let fixedBit := bitvec.getD 2 []
  let longPacketType := (bitvec.getD 1 []).reverse
  let typeSpecificBits := (bitvec.getD 0 []).reverse
  (drainN 4 bs).bind fun vb bs =>
  match vb with
  | [v0, v1, v2, v3] =>
    let versionId := v0 + 256 * v1 + 65536 * v2 + 16777216 * v3
    (remove0 bs).bind fun dstLen bs =>
    (drainN dstLen bs).bind fun dstData bs =>
    (remove0 bs).bind fun srcLen bs =>
    (drainN srcLen bs).bind fun srcData bs =>
    let extTy := if bitsToInner longPacketType = 0 then
        (if bitsToInner fixedBit = 0 then 4 else 0)
      else bitsToInner longPacketType
    (LongHeaderExtension.decode bs extTy).bind fun ext bs =>
    let hdr : LongHeader :=
      ⟨headerForm, fixedBit, longPacketType, typeSpecificBits, versionId,
        ⟨dstLen, dstData⟩, ⟨srcLen, srcData⟩, ext⟩
    if bs.isEmpty then
      .ok (if bitsToInner longPacketType = 0 then
            (if bitsToInner fixedBit = 0 then Header.versionNegotiate hdr
              else Header.initial hdr)
          else if bitsToInner longPacketType = 3 then Header.retry hdr
          else Header.long hdr) bs
    else .err "LongHeader::decode: Failed to read all bytes"
  | _ => .panic

/-- Model of `ShortHeader::decode`: split the first byte with widths
`[2, 1, 2, 1, 1, 1]`, reverse the reserved-bits group, read the CID,
read `invert(number_len) + 1` packet-number bytes, and require that
the whole buffer was consumed. -/
def ShortHeader.decode (bytes : List Nat) : PRes Header :=
  (remove0 bytes).bind fun firstByte bs =>
  let bitvec := decomposeBits (firstByte % 256) [2, 1, 2, 1, 1, 1]
  let headerForm := bitvec.getD 5 []
  let fixedBit := bitvec.getD 4 []
  let spinBit := bitvec.getD 3 []
  let reservedBits := (bitvec.getD 2 []).reverse
  let keyPhase := bitvec.getD 1 []
  let numberLen := bitvec.getD 0 []
  (remove0 bs).bind fun dstLen bs =>
  (drainN dstLen bs).bind fun dstData bs =>
  (drainN (bitsToInner (bitsInvert numberLen) + 1) bs).bind fun number bs =>
  if bs.isEmpty then
    .ok (Header.short
      ⟨headerForm, fixedBit, spinBit, reservedBits, keyPhase, bitsInvert numberLen,
        ⟨dstLen, dstData⟩, number⟩) bs
  else .err "ShortHeader::decode: Failed to read all bytes"

/-- The Initial long header constructed by the repository's own
`test_long_encode_decode` test: form = long (1), fixed = 1,
long-packet-type = Initial (0), type-specific bits = 0, version 1,
8-byte zero CIDs, Initial extension with token-length 8, an 8-byte
token, length 4, packet number 8. -/
def c3TestHeader : LongHeader :=
  ⟨[true], [true], [false, false], [false, false, false, false], 1,
    ⟨8, [0, 0, 0, 0, 0, 0, 0, 0]⟩, ⟨8, [0, 0, 0, 0, 0, 0, 0, 0]⟩,
    .initial 8 [0, 1, 0, 1, 0, 1, 0, 1] 4 8⟩

/-- The bytes `LongHeader::encode` produces for `c3TestHeader`. -/
def c3Bytes : List Nat :=
  [0x03, 1, 0, 0, 0, 8, 0, 0, 0, 0, 0, 0, 0, 0, 8, 0, 0, 0, 0, 0, 0, 0, 0,
   8, 0, 1, 0, 1, 0, 1, 0, 1, 4, 8]

/-- C3: the bit-fields are not packed MSB-first.  `compose_bits` puts
the first declared field (form = 1) into the least significant bit, so
the repo test's Initial long header encodes with first byte 0x03,
whose MSB is 0 — the claim requires MSB 1.  The decoder reads the
fields from the opposite end (form from the MSB), so decoding the
encoder's own output does not recover the input bit-fields: it selects
the version-negotiation extension and panics on the 11-byte extension
tail.  (This also makes the repository's own header round-trip test
fail.) -/
theorem c3_bitpacking_bug :
    LongHeader.encode c3TestHeader = .ok c3Bytes
    ∧ c3Bytes.getD 0 0 = 0x03
    ∧ c3Bytes.getD 0 0 / 2 ^ 7 = 0
    ∧ LongHeader.decode c3Bytes = .panic :=
  ⟨rfl, by decide, by decide, by decide⟩

/-- C10: `LongHeader::decode` and `ShortHeader::decode` return `Ok`
only when they consume their entire input buffer; any trailing bytes
make the final `require(bytes.is_empty())` fail. -/
theorem c10_full_consumption :
    (∀ (bytes : List Nat) (h : Header) (rest : List Nat),
        LongHeader.decode bytes = .ok h rest → rest = [])
    ∧ (∀ (bytes : List Nat) (h : Header) (rest : List Nat),
        ShortHeader.decode bytes = .ok h rest → rest = []) := by
  constructor
  · intro bytes h rest hdec
    unfold LongHeader.decode at hdec
    obtain ⟨b1, r1, _, hdec⟩ := PRes.bind_eq_ok hdec
    obtain ⟨vb, r2, _, hdec⟩ := PRes.bind_eq_ok hdec
    match vb with
    | [] => simp at hdec
    | [_] => simp at hdec
    | [_, _] => simp at hdec
    | [_, _, _] => simp at hdec
    | _ :: _ :: _ :: _ :: _ :: _ => simp at hdec
    | [v0, v1, v2, v3] =>
      obtain ⟨dl, r3, _, hdec⟩ := PRes.bind_eq_ok hdec
      obtain ⟨dd, r4, _, hdec⟩ := PRes.bind_eq_ok hdec
      obtain ⟨sl, r5, _, hdec⟩ := PRes.bind_eq_ok hdec
      obtain ⟨sd, r6, _, hdec⟩ := PRes.bind_eq_ok hdec
      obtain ⟨ext, r7, _, hdec⟩ := PRes.bind_eq_ok hdec
      by_cases hemp : r7.isEmpty
      · rw [if_pos hemp] at hdec
        obtain ⟨-, hrest⟩ := PRes.ok.inj hdec
        rw [← hrest]
        exact List.isEmpty_iff.mp hemp
      · rw [if_neg hemp] at hdec
        simp at hdec
  · intro bytes h rest hdec
    unfold ShortHeader.decode at hdec
    obtain ⟨b1, r1, _, hdec⟩ := PRes.bind_eq_ok hdec
    obtain ⟨dl, r2, _, hdec⟩ := PRes.bind_eq_ok hdec
    obtain ⟨dd, r3, _, hdec⟩ := PRes.bind_eq_ok hdec
    obtain ⟨num, r4, _, hdec⟩ := PRes.bind_eq_ok hdec
    by_cases hemp : r4.isEmpty
    · rw [if_pos hemp] at hdec
      obtain ⟨-, hrest⟩ := PRes.ok.inj hdec
      rw [← hrest]
      exact List.isEmpty_iff.mp hemp
    · rw [if_neg hemp] at hdec
      simp at hdec

/-- C10 witness: a fully-consumed 7-byte version-negotiation header
and a fully-consumed 6-byte short header. -/
theorem c10_witness :
    (LongHeader.decode [0, 1, 0, 0, 0, 0, 0]
        = .ok (Header.versionNegotiate
            ⟨[false], [false], [false, false], [false, false, false, false], 1,
              ⟨0, []⟩, ⟨0, []⟩, .versionNegotiation []⟩) []
      ∧ ([] : List Nat) = [])
    ∧ (ShortHeader.decode [0, 0, 9, 9, 9, 9]
        = .ok (Header.short
            ⟨[false], [false], [false], [false, false], [false], [true, true],
              ⟨0, []⟩, [9, 9, 9, 9]⟩) []
      ∧ ([] : List Nat) = []) :=
  ⟨⟨by decide, c10_full_consumption.1 [0, 1, 0, 0, 0, 0, 0]
      (Header.versionNegotiate
        ⟨[false], [false], [false, false], [false, false, false, false], 1,
          ⟨0, []⟩, ⟨0, []⟩, .versionNegotiation []⟩) [] (by decide)⟩,
   ⟨by decide, c10_full_consumption.2 [0, 0, 9, 9, 9, 9]
      (Header.short
        ⟨[false], [false], [false], [false, false], [false], [true, true],
          ⟨0, []⟩, [9, 9, 9, 9]⟩) [] (by decide)⟩⟩

end MiniQuiche
